import Mathlib

/-!
Shallow embedding of the QNX4 read-only filesystem driver found in
src/qnx4_patched.py (a patched copy of dissect.qnxfs.qnx4), with proofs
about its volume bootstrap, extent-chain walker, directory iterator and
path resolver.  Byte sources are modelled as total functions from offsets
to byte values; machine integers of the Python code are modelled as Nat,
with Int used where the Python code can produce negative values.
-/

/-- Fixed QNX4 on-disk format constant.  The Python source imports these
constants from the external module dissect.qnxfs.c_qnx4; the values are the
ones of the QNX4 on-disk format (see the Linux fs/qnx4 headers, which the
source cites as its reference). -/
def QNX4_BLOCK_SIZE : Nat := 512

/-- Fixed root inode number constant of the QNX4 format (c_qnx4). -/
def QNX4_ROOT_INO : Nat := 1

/-- Number of inode records per block (c_qnx4). -/
def QNX4_INODES_PER_BLOCK : Nat := 8

/-- Size in bytes of one directory entry slot (c_qnx4). -/
def QNX4_DIR_ENTRY_SIZE : Nat := 64

/-- Length of the inline short name field of a plain directory entry (c_qnx4). -/
def QNX4_SHORT_NAME_MAX : Nat := 16

/-- Length of the inline name field of a link directory entry (c_qnx4). -/
def QNX4_NAME_MAX : Nat := 48

/-- Status byte flag: slot in use (c_qnx4). -/
def QNX4_FILE_USED : Nat := 1

/-- Status byte flag: slot is a link entry (c_qnx4). -/
def QNX4_FILE_LINK : Nat := 8

/-- File type mask of the mode field, as computed by stat.S_IFMT. -/
def S_IFMT (m : Nat) : Nat := m &&& 0o170000

/-- File type bits of a directory (stat.S_IFDIR). -/
def S_IFDIR : Nat := 0o040000

/-- File type bits of a regular file (stat.S_IFREG). -/
def S_IFREG : Nat := 0o100000

/-- File type bits of a symbolic link (stat.S_IFLNK). -/
def S_IFLNK : Nat := 0o120000

deriving instance DecidableEq for Except

/-- Errors raised by the driver.  Each constructor corresponds to one raise
site of the Python source and carries the message built there; fuelOut is a
model artefact marking recursion depth exhaustion (the Python code has no
depth guard and can recurse without bound). -/
inductive QErr where
  | genericError (msg : String)
  | invalidFilesystem (msg : String)
  | fileNotFound (msg : String)
  | notADirectory (msg : String)
  | notASymlink (msg : String)
  | fuelOut
  deriving DecidableEq

/-- Python exception classes of the dissect.qnxfs.exceptions module that the
source imports.  There is no BrokenLink class among them. -/
inductive PyExnClass where
  | errorExn
  | invalidFilesystemErrorExn
  | fileNotFoundErrorExn
  | notADirectoryErrorExn
  | notASymlinkErrorExn
  | fuelOutModel
  deriving DecidableEq

/-- Exception class of an error value, mirroring which Python exception class
each raise site of the source uses. -/
def QErr.pyClass : QErr → PyExnClass
  | .genericError _ => .errorExn
  | .invalidFilesystem _ => .invalidFilesystemErrorExn
  | .fileNotFound _ => .fileNotFoundErrorExn
  | .notADirectory _ => .notADirectoryErrorExn
  | .notASymlink _ => .notASymlinkErrorExn
  | .fuelOut => .fuelOutModel

/-- Read n bytes of a volume starting at a byte offset.  The volume is a
total function from byte offsets to byte values. -/
def readBytes (disk : Nat → Nat) (off n : Nat) : List Nat :=
  (List.range n).map (fun k => disk (off + k))

/-- The 16 byte root marker a valid volume carries at offset QNX4_BLOCK_SIZE:
a single slash byte (0x2F) followed by 15 zero bytes. -/
def qnx4Marker : List Nat := 47 :: List.replicate 15 0

/-- Embedding of _is_qnx4 (qnx4_patched.py lines 289 to 291): seek to
QNX4_BLOCK_SIZE and compare 16 bytes against the marker. -/
def isQnx4 (disk : Nat → Nat) : Bool :=
  readBytes disk QNX4_BLOCK_SIZE 16 == qnx4Marker

/-- The filesystem value the bootstrap returns: the fixed block size and the
inode number of the root inode handle. -/
structure QNX4FS where
  blockSize : Nat
  rootInum : Nat
  deriving DecidableEq

/-- Embedding of the QNX4 constructor (qnx4_patched.py lines 40 to 48):
validate the marker, expose the block size and the root inode handle at
inode number QNX4_ROOT_INO * QNX4_INODES_PER_BLOCK. -/
def qnx4Init (disk : Nat → Nat) : Except QErr QNX4FS :=
  if isQnx4 disk then
    .ok ⟨QNX4_BLOCK_SIZE, QNX4_ROOT_INO * QNX4_INODES_PER_BLOCK⟩
  else
    .error (.invalidFilesystem ("Invalid QNX4 filesystem"))

/-- One extent of the on-disk format: 1-based starting block and length in
blocks (fields xtnt_blk and xtnt_size of c_qnx4.qnx4_xtnt). -/
structure QXtnt where
  xtnt_blk : Nat
  xtnt_size : Nat
  deriving DecidableEq

/-- One parsed overflow block (c_qnx4.qnx4_xblk): the next overflow block
pointer and the extent array.  The list holds exactly the first
xblk_num_xtnts entries of the on-disk array, which are the entries the
source iterates over. -/
structure QXblk where
  xblk_next_xblk : Nat
  xblk_xtnts : List QXtnt
  deriving DecidableEq

/-- The inode fields the extent-chain walker reads: total extent count,
inline first extent and first overflow block pointer. -/
structure QInodeChain where
  di_num_xtnts : Nat
  di_first_xtnt : QXtnt
  di_xblk : Nat
  deriving DecidableEq

/-- Embedding of the while loop of INode4._iter_chain (qnx4_patched.py lines
265 to 278).  Arguments: a reader mapping an overflow block pointer to the
parsed block that a seek to (pointer - 1) * block_size followed by a parse
yields, recursion fuel, the remaining extent counter and the current
pointer.  Returns the emitted (block, length) runs, block already converted
to the 0-based Int offset xtnt_blk - 1, and the trace of pointer values the
loop performed a seek for.  Note that the loop body of the source does not
decrement the remaining extent counter, so the counter argument is passed
through unchanged, exactly as in the source. -/
def chainLoop (xread : Nat → QXblk) : Nat → Nat → Nat → List (Int × Nat) × List Nat
  | 0, _, _ => ([], [])
  | fuel + 1, numExtents, xblkNum =>
    if numExtents ≠ 0 ∧ xblkNum ≠ 0 then
      ((xread xblkNum).xblk_xtnts.map (fun x => (((x.xtnt_blk : Int) - 1), x.xtnt_size)) ++
        (chainLoop xread fuel numExtents (xread xblkNum).xblk_next_xblk).1,
       xblkNum :: (chainLoop xread fuel numExtents (xread xblkNum).xblk_next_xblk).2)
    else ([], [])

/-- Embedding of INode4._iter_chain (qnx4_patched.py lines 256 to 278): if
the extent count is zero the sequence is empty; otherwise the inline first
extent is emitted, the counter is decremented once, and the overflow loop
runs.  Returns the emitted runs and the seek trace of the overflow loop. -/
def iterChain (xread : Nat → QXblk) (ino : QInodeChain) (fuel : Nat) :
    List (Int × Nat) × List Nat :=
  if ino.di_num_xtnts = 0 then ([], [])
  else
    ((((ino.di_first_xtnt.xtnt_blk : Int) - 1), ino.di_first_xtnt.xtnt_size) ::
       (chainLoop xread fuel (ino.di_num_xtnts - 1) ino.di_xblk).1,
     (chainLoop xread fuel (ino.di_num_xtnts - 1) ino.di_xblk).2)

/-- Modelled from the spec, section 4.3 step 3, for comparison with the code:
a chain walker loop that decrements the remaining counter once per emitted
extent, consuming each whole overflow array, and re-checks counter and
pointer before every iteration. -/
def specChainLoop (xread : Nat → QXblk) : Nat → Nat → Nat → List (Int × Nat)
  | 0, _, _ => []
  | fuel + 1, numExtents, xblkNum =>
    if numExtents ≠ 0 ∧ xblkNum ≠ 0 then
      (xread xblkNum).xblk_xtnts.map (fun x => (((x.xtnt_blk : Int) - 1), x.xtnt_size)) ++
        specChainLoop xread fuel (numExtents - (xread xblkNum).xblk_xtnts.length)
          (xread xblkNum).xblk_next_xblk
    else []

/-- Modelled from the spec, section 4.3: full walker built on specChainLoop,
for comparison with iterChain. -/
def specIterChain (xread : Nat → QXblk) (ino : QInodeChain) (fuel : Nat) :
    List (Int × Nat) :=
  if ino.di_num_xtnts = 0 then []
  else
    ((((ino.di_first_xtnt.xtnt_blk : Int) - 1), ino.di_first_xtnt.xtnt_size)) ::
      specChainLoop xread fuel (ino.di_num_xtnts - 1) ino.di_xblk

/-- The fields of a parsed c_qnx4.qnx4_link_info record that the directory
iterator reads.  The byte layout of the record lives in the external c_qnx4
module, so the parse itself is kept abstract (see DirDisk.linkInfo). -/
structure LinkInfo where
  dl_inode_blk : Nat
  dl_inode_ndx : Nat
  dl_lfn_blk : Nat
  deriving DecidableEq

/-- Disk reads performed by INode4.iterdir.  slot b i is the
QNX4_DIR_ENTRY_SIZE byte buffer read after a seek to
b * block_size + i * QNX4_DIR_ENTRY_SIZE; linkInfo is the external c_qnx4
parse of such a buffer as a qnx4_link_info record; lfnName p is the lfn_name
field of the long-filename record parsed after a seek to
(p - 1) * block_size. -/
structure DirDisk where
  slot : Int → Nat → List Nat
  linkInfo : List Nat → LinkInfo
  lfnName : Nat → List Nat

/-- Truncate a byte sequence at its first zero byte, as the Python
expression name.split at the first NUL byte does (line 253). -/
def nulTrunc (bs : List Nat) : List Nat := bs.takeWhile (fun b => b != 0)

/-- A slot is classifiable when its first name byte is non-zero and its
status byte (the last byte of the slot) has the USED or the LINK flag. -/
def classifiableB (buf : List Nat) : Bool :=
  (buf.getD 0 0 != 0) && (buf.getD 63 0 &&& (QNX4_FILE_USED ||| QNX4_FILE_LINK) != 0)

/-- Embedding of the per-slot body of INode4.iterdir (qnx4_patched.py lines
225 to 254).  Returns an error on a short read, none for a skipped slot, and
the (name bytes, inode number) pair for a yielded entry.  Names are kept as
the raw byte sequences; the Python decode with surrogateescape is a total
injective mapping of byte sequences, so byte sequence equality models
decoded string equality.  The status byte is buf[-1], which is byte 63 of a
64 byte buffer. -/
def classifySlot (d : DirDisk) (blockStart : Int) (i : Nat) :
    Except QErr (Option (List Nat × Int)) :=
  if (d.slot blockStart i).length ≠ QNX4_DIR_ENTRY_SIZE then
    .error (.genericError ("Invalid QNX4 directory entry"))
  else if (d.slot blockStart i).getD 0 0 = 0 then
    .ok none
  else if (d.slot blockStart i).getD 63 0 &&& (QNX4_FILE_USED ||| QNX4_FILE_LINK) = 0 then
    .ok none
  else if (d.slot blockStart i).getD 63 0 &&& QNX4_FILE_LINK ≠ 0 then
    .ok (some
      (nulTrunc (if (d.linkInfo (d.slot blockStart i)).dl_lfn_blk ≠ 0 then
          d.lfnName (d.linkInfo (d.slot blockStart i)).dl_lfn_blk
        else
          (d.slot blockStart i).take QNX4_NAME_MAX),
       (((d.linkInfo (d.slot blockStart i)).dl_inode_blk : Int) - 1) *
           (QNX4_INODES_PER_BLOCK : Int) +
         ((d.linkInfo (d.slot blockStart i)).dl_inode_ndx : Int)))
  else
    .ok (some
      (nulTrunc ((d.slot blockStart i).take QNX4_SHORT_NAME_MAX),
       blockStart * (QNX4_INODES_PER_BLOCK : Int) + (i : Int)))

/-- Iterate the given slot indices of one chain run, collecting the yielded
entries in slot order and propagating the first error, as the generator body
of iterdir does. -/
def iterSlots (d : DirDisk) (blockStart : Int) : List Nat →
    Except QErr (List (List Nat × Int))
  | [] => .ok []
  | i :: rest =>
    match classifySlot d blockStart i with
    | .error e => .error e
    | .ok none => iterSlots d blockStart rest
    | .ok (some x) =>
      match iterSlots d blockStart rest with
      | .error e => .error e
      | .ok l => .ok (x :: l)

/-- Embedding of the slot loop of INode4.iterdir over the runs produced by
the extent-chain walker: for every (block, length) run, every slot index
below QNX4_INODES_PER_BLOCK * length is visited. -/
def iterdirM (d : DirDisk) : List (Int × Nat) → Except QErr (List (List Nat × Int))
  | [] => .ok []
  | r :: rest =>
    match iterSlots d r.1 (List.range (QNX4_INODES_PER_BLOCK * r.2)) with
    | .error e => .error e
    | .ok l =>
      match iterdirM d rest with
      | .error e => .error e
      | .ok l2 => .ok (l ++ l2)

/-- One insertion into a Python dict rendered as an insertion-ordered
association list: an existing key keeps its position and gets the new value,
a new key is appended. -/
def dictInsert (m : List (List Nat × Int)) (kv : List Nat × Int) :
    List (List Nat × Int) :=
  if m.any (fun p => p.1 == kv.1) then
    m.map (fun p => if p.1 == kv.1 then kv else p)
  else
    m ++ [kv]

/-- Python dict built from a list of key value pairs, as dict(iterable)
does: later pairs overwrite earlier pairs with the same key. -/
def pyDict (l : List (List Nat × Int)) : List (List Nat × Int) :=
  l.foldl dictInsert []

/-- Embedding of INode4.listdir (qnx4_patched.py lines 213 to 215):
materialize the iterator into a dict. -/
def listdirM (d : DirDisk) (runs : List (Int × Nat)) :
    Except QErr (List (List Nat × Int)) :=
  (iterdirM d runs).map pyDict

/-- Number of classifiable slots among the slots of the given runs. -/
def countClassifiable (d : DirDisk) : List (Int × Nat) → Nat
  | [] => 0
  | r :: rest =>
    (List.range (QNX4_INODES_PER_BLOCK * r.2)).countP
        (fun i => classifiableB (d.slot r.1 i)) +
      countClassifiable d rest

/-- Abstract view of a mounted filesystem as the path resolver QNX4.get
consumes it: the root inode number, the mode and status fields of every
inode record, the decoded data stream content of every inode (INode4.link
reads it for symlinks), and the directory listing every inode yields in slot
order (INode4.iterdir). -/
structure QnxFS where
  root : Nat
  mode : Nat → Nat
  status : Nat → Nat
  linkContent : Nat → String
  dirents : Nat → List (String × Nat)

/-- Embedding of INode4.is_symlink (qnx4_patched.py lines 185 to 187): the
file type bits equal S_IFLNK or the status byte carries QNX4_FILE_LINK. -/
def is_symlink (fs : QnxFS) (i : Nat) : Bool :=
  (S_IFMT (fs.mode i) == S_IFLNK) || (fs.status i &&& QNX4_FILE_LINK != 0)

/-- Embedding of INode4.is_dir (qnx4_patched.py lines 177 to 179). -/
def is_dir (fs : QnxFS) (i : Nat) : Bool :=
  S_IFMT (fs.mode i) == S_IFDIR

/-- Embedding of INode4.is_file (qnx4_patched.py lines 181 to 183). -/
def is_file (fs : QnxFS) (i : Nat) : Bool :=
  S_IFMT (fs.mode i) == S_IFREG

/-- First directory entry with the given name, as the for loop over iterdir
with a break on the first name match behaves. -/
def lookupName : List (String × Nat) → String → Option Nat
  | [], _ => none
  | (n, e) :: rest, part => if n = part then some e else lookupName rest part

/-- Split a character list on the slash separator, keeping empty components,
with the semantics of the Python str.split method with an explicit
separator: the empty string yields one empty component. -/
def splitSlash : List Char → List String
  | [] => [""]
  | c :: rest =>
    match splitSlash rest with
    | [] => [""]
    | h :: t => if c = '/' then "" :: h :: t else String.mk (c :: h.data) :: t

/-- Pending call of the path resolver: parts is the loop of QNX4.get over
the remaining path components with the one-step previous node, rsym is the
while loop resolving symlinks at the current node (qnx4_patched.py lines 76
to 79). -/
inductive RCall where
  | parts (parts : List String) (prev : Option Nat) (node : Nat) (path : String)
  | rsym (prev : Option Nat) (node : Nat) (path : String)

/-- Embedding of QNX4.get (qnx4_patched.py lines 58 to 88), written as a
fuel-indexed interpreter over RCall so that the mutual recursion between the
component loop and the symlink while loop, which the Python code runs
without any depth bound, becomes structural recursion on fuel.  Every
recursive call costs one unit of fuel; exhausted fuel models the unbounded
recursion of the source. -/
def qrun (fs : QnxFS) : Nat → RCall → Except QErr Nat
  | 0, _ => .error .fuelOut
  | _ + 1, .parts [] _ node _ => .ok node
  | fuel + 1, .parts (part :: rest) prev node path =>
    if part = "" then qrun fs fuel (.parts rest prev node path)
    else
      match qrun fs fuel (.rsym prev node path) with
      | .error e => .error e
      | .ok node2 =>
        if is_dir fs node2 then
          match lookupName (fs.dirents node2) part with
          | some child => qrun fs fuel (.parts rest (some node2) child path)
          | none => .error (.fileNotFound ("File not found: " ++ path))
        else
          .error (.notADirectory ("<inode " ++ toString node2 ++ "> is not a directory"))
  | fuel + 1, .rsym prev node path =>
    if is_symlink fs node then
      match prev with
      | none => .error (.fileNotFound ("Illegal symlink layout detected: " ++ path))
      | some p =>
        match qrun fs fuel
            (.parts (splitSlash (fs.linkContent node).data) none p (fs.linkContent node)) with
        | .error e => .error e
        | .ok t => qrun fs fuel (.rsym (some node) t path)
    else .ok node

/-- Embedding of a QNX4.get call with a string path: split the path on
slashes and run the component loop from the given start node, or from the
root when no start node is given. -/
def qget (fs : QnxFS) (fuel : Nat) (path : String) (start : Option Nat) :
    Except QErr Nat :=
  qrun fs fuel (.parts (splitSlash path.data) none (start.getD fs.root) path)

/-- The symlink while loop of QNX4.get (lines 76 to 79) as a named entry
point: resolve symlinks at the current node before a component lookup. -/
def resolveSym (fs : QnxFS) (fuel : Nat) (prev : Option Nat) (node : Nat)
    (path : String) : Except QErr Nat :=
  qrun fs fuel (.rsym prev node path)

/-- Helper: every pointer the overflow loop seeks for is non-zero, because
the loop guard checks the pointer before the seek. -/
lemma chainLoop_seek_ne_zero (xread : Nat → QXblk) :
    ∀ fuel numExtents xblkNum p, p ∈ (chainLoop xread fuel numExtents xblkNum).2 →
      p ≠ 0 := by
  intro fuel
  induction fuel with
  | zero => intro n x p hp; simp [chainLoop] at hp
  | succ f ih =>
    intro n x p hp
    unfold chainLoop at hp
    split at hp
    · rename_i h
      simp only [List.mem_cons] at hp
      rcases hp with hpx | hpr
      · exact hpx ▸ h.2
      · exact ih n (xread x).xblk_next_xblk p hpr
    · simp at hp

/-- Concrete chain used for the C1 evaluation: an inode declaring 2 extents
whose overflow chain nevertheless holds 2 further extents across two
overflow blocks. -/
def xr1 : Nat → QXblk := fun b =>
  if b = 2 then ⟨3, [⟨300, 3⟩]⟩ else if b = 3 then ⟨0, [⟨400, 7⟩]⟩ else ⟨0, []⟩

/-- Inode for the C1 evaluation: 2 declared extents, inline extent
(100, 5), first overflow block pointer 2. -/
def ino1 : QInodeChain := ⟨2, ⟨100, 5⟩, 2⟩

/-- C1: the extent-chain walker of the code does not decrement the
remaining-extent counter inside the overflow loop (qnx4_patched.py lines 266
to 278 contain no decrement), so on an inode declaring di_num_xtnts = 2 it
emits a third extent and seeks a second overflow block, while the walker
described by the claim, specIterChain, stops after the declared 2 extents.
This evaluates both walkers on the failing input. -/
theorem c1_chain_counter_not_decremented :
    (iterChain xr1 ino1 16).1 = [((99 : Int), 5), (299, 3), (399, 7)] ∧
    (iterChain xr1 ino1 16).2 = [2, 3] ∧
    specIterChain xr1 ino1 16 = [((99 : Int), 5), (299, 3)] ∧
    ino1.di_num_xtnts = 2 := by
  refine ⟨by decide, by decide, by decide, by decide⟩

/-- C2: during chain traversal every performed seek is based on a non-zero
overflow pointer, hence its byte offset (pointer - 1) * block_size is
non-negative: a zero next-pointer terminates traversal before any seek. -/
theorem c2_no_seek_from_zero_pointer (xread : Nat → QXblk) (ino : QInodeChain)
    (fuel : Nat) (p : Nat) (hp : p ∈ (iterChain xread ino fuel).2) :
    p ≠ 0 ∧ (0 : Int) ≤ ((p : Int) - 1) * (QNX4_BLOCK_SIZE : Int) := by
  have hne : p ≠ 0 := by
    have h2 : p ∈ (chainLoop xread fuel (ino.di_num_xtnts - 1) ino.di_xblk).2 := by
      unfold iterChain at hp
      split at hp
      · simp at hp
      · exact hp
    exact chainLoop_seek_ne_zero xread fuel _ _ p h2
  refine ⟨hne, ?_⟩
  have h1 : (1 : Int) ≤ (p : Int) := by
    exact_mod_cast Nat.one_le_iff_ne_zero.mpr hne
  have h0 : (0 : Int) ≤ (p : Int) - 1 := by omega
  exact mul_nonneg h0 (by norm_num [QNX4_BLOCK_SIZE])

/-- Concrete chain for the C2 witness: one overflow block at pointer 7 whose
next-pointer is zero. -/
def xr2 : Nat → QXblk := fun b => if b = 7 then ⟨0, [⟨20, 1⟩]⟩ else ⟨0, []⟩

/-- Inode for the C2 witness. -/
def ino2 : QInodeChain := ⟨3, ⟨10, 2⟩, 7⟩

/-- Witness for C2 at a concrete chain whose last next-pointer is zero. -/
theorem c2_witness :
    7 ∈ (iterChain xr2 ino2 12).2 ∧
    ((7 : Nat) ≠ 0 ∧ (0 : Int) ≤ (((7 : Nat) : Int) - 1) * (QNX4_BLOCK_SIZE : Int)) :=
  ⟨by decide, c2_no_seek_from_zero_pointer xr2 ino2 12 7 (by decide)⟩

/-- C5: mounting depends on exactly the 16 bytes at offset QNX4_BLOCK_SIZE;
it succeeds with the fixed block size and the fixed root inode number if and
only if those bytes equal the slash-and-zeros marker, and otherwise fails
with the invalid filesystem error. -/
theorem c5_mount_marker_check (disk : Nat → Nat) :
    (qnx4Init disk = .ok ⟨QNX4_BLOCK_SIZE, QNX4_ROOT_INO * QNX4_INODES_PER_BLOCK⟩ ↔
      readBytes disk QNX4_BLOCK_SIZE 16 = qnx4Marker) ∧
    (qnx4Init disk = .error (.invalidFilesystem ("Invalid QNX4 filesystem")) ↔
      readBytes disk QNX4_BLOCK_SIZE 16 ≠ qnx4Marker) ∧
    (∀ disk2 : Nat → Nat,
      readBytes disk2 QNX4_BLOCK_SIZE 16 = readBytes disk QNX4_BLOCK_SIZE 16 →
      qnx4Init disk2 = qnx4Init disk) := by
  refine ⟨?_, ?_, ?_⟩
  · by_cases h : readBytes disk QNX4_BLOCK_SIZE 16 = qnx4Marker <;>
      simp [qnx4Init, isQnx4, h]
  · by_cases h : readBytes disk QNX4_BLOCK_SIZE 16 = qnx4Marker <;>
      simp [qnx4Init, isQnx4, h]
  · intro disk2 h2
    unfold qnx4Init isQnx4
    rw [h2]

/-- Volume for the C5 witness: the marker byte 0x2F at offset 512 and zero
bytes everywhere else. -/
def disk5 : Nat → Nat := fun n => if n = 512 then 47 else 0

/-- Witness for C5 on a concrete valid volume. -/
theorem c5_witness :
    readBytes disk5 QNX4_BLOCK_SIZE 16 = qnx4Marker ∧
    qnx4Init disk5 = .ok ⟨QNX4_BLOCK_SIZE, QNX4_ROOT_INO * QNX4_INODES_PER_BLOCK⟩ :=
  ⟨by decide, (c5_mount_marker_check disk5).1.mpr (by decide)⟩

/-- Helper: a name produced by nulTrunc never contains a zero byte. -/
lemma nulTrunc_no_zero (bs : List Nat) : (0 : Nat) ∉ nulTrunc bs := by
  intro h
  have := List.mem_takeWhile_imp h
  simp at this

/-- C6: a classifiable slot with the LINK flag yields the inode number
(link_block - 1) * inodes_per_block + link_index taken from the parsed link
record of the entry, and a classifiable slot without the LINK flag (plain
USED) yields block * inodes_per_block + slot_index from its position. -/
theorem c6_direntry_inode_numbers (d : DirDisk) (b : Int) (i : Nat)
    (h64 : (d.slot b i).length = QNX4_DIR_ENTRY_SIZE)
    (h0 : (d.slot b i).getD 0 0 ≠ 0)
    (hcls : (d.slot b i).getD 63 0 &&& (QNX4_FILE_USED ||| QNX4_FILE_LINK) ≠ 0) :
    ((d.slot b i).getD 63 0 &&& QNX4_FILE_LINK ≠ 0 →
      ∃ name, classifySlot d b i = .ok (some (name,
        (((d.linkInfo (d.slot b i)).dl_inode_blk : Int) - 1) * (QNX4_INODES_PER_BLOCK : Int) +
          ((d.linkInfo (d.slot b i)).dl_inode_ndx : Int)))) ∧
    ((d.slot b i).getD 63 0 &&& QNX4_FILE_LINK = 0 →
      ∃ name, classifySlot d b i = .ok (some (name,
        b * (QNX4_INODES_PER_BLOCK : Int) + (i : Int)))) := by
  constructor
  · intro hlink
    have e : classifySlot d b i = .ok (some
        (nulTrunc (if (d.linkInfo (d.slot b i)).dl_lfn_blk ≠ 0 then
            d.lfnName (d.linkInfo (d.slot b i)).dl_lfn_blk
          else (d.slot b i).take QNX4_NAME_MAX),
         (((d.linkInfo (d.slot b i)).dl_inode_blk : Int) - 1) * (QNX4_INODES_PER_BLOCK : Int) +
           ((d.linkInfo (d.slot b i)).dl_inode_ndx : Int))) := by
      unfold classifySlot
      rw [if_neg (fun hc => hc h64), if_neg h0, if_neg hcls, if_pos hlink]
    exact ⟨_, e⟩
  · intro hnl
    have e : classifySlot d b i = .ok (some
        (nulTrunc ((d.slot b i).take QNX4_SHORT_NAME_MAX),
         b * (QNX4_INODES_PER_BLOCK : Int) + (i : Int))) := by
      unfold classifySlot
      rw [if_neg (fun hc => hc h64), if_neg h0, if_neg hcls, if_neg (fun hc => hc hnl)]
    exact ⟨_, e⟩

/-- Slot source for the C6 witness: a used entry named song.mp3 (bytes
115 111 110 103 46 109 112 51) at block 5, slot 3, with status byte USED. -/
def d6c : DirDisk :=
  ⟨fun b i => if b = 5 ∧ i = 3 then
      [115, 111, 110, 103, 46, 109, 112, 51] ++ List.replicate 55 0 ++ [1]
    else List.replicate 64 0,
   fun _ => ⟨0, 0, 0⟩,
   fun _ => []⟩

/-- Witness for C6: the used entry at block 5, slot 3 yields inode number
5 * 8 + 3 = 43. -/
theorem c6_witness :
    (d6c.slot 5 3).getD 63 0 &&& QNX4_FILE_LINK = 0 ∧
    ∃ name, classifySlot d6c 5 3 = .ok (some (name, (43 : Int))) := by
  refine ⟨by decide, ?_⟩
  obtain ⟨name, hn⟩ :=
    (c6_direntry_inode_numbers d6c 5 3 (by decide) (by decide) (by decide)).2 (by decide)
  have h43 : (5 : Int) * (QNX4_INODES_PER_BLOCK : Int) + ((3 : Nat) : Int) = 43 := by decide
  exact ⟨name, h43 ▸ hn⟩

/-- C7: the display name of a link entry comes from the long-filename
record when the entry references one and from the inline 48 byte name field
otherwise; a plain used entry takes its inline 16 byte short name; every
yielded name is the byte prefix before the first zero byte, for arbitrary
byte values, and so never contains a zero byte. -/
theorem c7_direntry_names (d : DirDisk) (b : Int) (i : Nat)
    (h64 : (d.slot b i).length = QNX4_DIR_ENTRY_SIZE)
    (h0 : (d.slot b i).getD 0 0 ≠ 0)
    (hcls : (d.slot b i).getD 63 0 &&& (QNX4_FILE_USED ||| QNX4_FILE_LINK) ≠ 0) :
    (((d.slot b i).getD 63 0 &&& QNX4_FILE_LINK ≠ 0 ∧
        (d.linkInfo (d.slot b i)).dl_lfn_blk ≠ 0) →
      ∃ inum, classifySlot d b i = .ok (some
        (nulTrunc (d.lfnName (d.linkInfo (d.slot b i)).dl_lfn_blk), inum))) ∧
    (((d.slot b i).getD 63 0 &&& QNX4_FILE_LINK ≠ 0 ∧
        (d.linkInfo (d.slot b i)).dl_lfn_blk = 0) →
      ∃ inum, classifySlot d b i = .ok (some
        (nulTrunc ((d.slot b i).take QNX4_NAME_MAX), inum))) ∧
    ((d.slot b i).getD 63 0 &&& QNX4_FILE_LINK = 0 →
      ∃ inum, classifySlot d b i = .ok (some
        (nulTrunc ((d.slot b i).take QNX4_SHORT_NAME_MAX), inum))) ∧
    (∀ name inum, classifySlot d b i = .ok (some (name, inum)) →
      (0 : Nat) ∉ name) := by
  refine ⟨?_, ?_, ?_, ?_⟩
  · intro ⟨hlink, hlfn⟩
    have e : classifySlot d b i = .ok (some
        (nulTrunc (d.lfnName (d.linkInfo (d.slot b i)).dl_lfn_blk),
         (((d.linkInfo (d.slot b i)).dl_inode_blk : Int) - 1) * (QNX4_INODES_PER_BLOCK : Int) +
           ((d.linkInfo (d.slot b i)).dl_inode_ndx : Int))) := by
      unfold classifySlot
      rw [if_neg (fun hc => hc h64), if_neg h0, if_neg hcls, if_pos hlink, if_pos hlfn]
    exact ⟨_, e⟩
  · intro ⟨hlink, hlfn⟩
    have e : classifySlot d b i = .ok (some
        (nulTrunc ((d.slot b i).take QNX4_NAME_MAX),
         (((d.linkInfo (d.slot b i)).dl_inode_blk : Int) - 1) * (QNX4_INODES_PER_BLOCK : Int) +
           ((d.linkInfo (d.slot b i)).dl_inode_ndx : Int))) := by
      unfold classifySlot
      rw [if_neg (fun hc => hc h64), if_neg h0, if_neg hcls, if_pos hlink,
        if_neg (fun hc => hc hlfn)]
    exact ⟨_, e⟩
  · intro hnl
    have e : classifySlot d b i = .ok (some
        (nulTrunc ((d.slot b i).take QNX4_SHORT_NAME_MAX),
         b * (QNX4_INODES_PER_BLOCK : Int) + (i : Int))) := by
      unfold classifySlot
      rw [if_neg (fun hc => hc h64), if_neg h0, if_neg hcls, if_neg (fun hc => hc hnl)]
    exact ⟨_, e⟩
  · intro name inum h
    unfold classifySlot at h
    rw [if_neg (fun hc => hc h64), if_neg h0, if_neg hcls] at h
    by_cases hl : (d.slot b i).getD 63 0 &&& QNX4_FILE_LINK ≠ 0
    · rw [if_pos hl] at h
      simp only [Except.ok.injEq, Option.some.injEq, Prod.mk.injEq] at h
      exact h.1 ▸ nulTrunc_no_zero _
    · rw [if_neg hl] at h
      simp only [Except.ok.injEq, Option.some.injEq, Prod.mk.injEq] at h
      exact h.1 ▸ nulTrunc_no_zero _

/-- Slot source for the C7 witness: a link entry referencing long-filename
block 9 whose record holds the bytes of lname followed by a zero byte. -/
def d7c : DirDisk :=
  ⟨fun _ _ => 102 :: (List.replicate 62 0 ++ [8]),
   fun _ => ⟨4, 2, 9⟩,
   fun p => if p = 9 then [108, 110, 97, 109, 101, 0, 7] else []⟩

/-- Witness for C7: the link entry takes its name from the long-filename
record, truncated at the first zero byte, and the name has no zero byte. -/
theorem c7_witness :
    (∃ inum, classifySlot d7c 0 0 =
      .ok (some (([108, 110, 97, 109, 101] : List Nat), inum))) ∧
    (0 : Nat) ∉ ([108, 110, 97, 109, 101] : List Nat) := by
  obtain ⟨inum, h⟩ :=
    (c7_direntry_names d7c 0 0 (by decide) (by decide) (by decide)).1 ⟨by decide, by decide⟩
  have he : nulTrunc (d7c.lfnName (d7c.linkInfo (d7c.slot 0 0)).dl_lfn_blk) =
      [108, 110, 97, 109, 101] := by decide
  refine ⟨⟨inum, he ▸ h⟩, ?_⟩
  exact (c7_direntry_names d7c 0 0 (by decide) (by decide) (by decide)).2.2.2
    [108, 110, 97, 109, 101] inum (he ▸ h)

/-- Helper: on slots that read back with the full entry size, iterating a
list of slot indices succeeds and yields one entry per classifiable slot. -/
lemma iterSlots_length (d : DirDisk) (b : Int) :
    ∀ is : List Nat, (∀ i ∈ is, (d.slot b i).length = QNX4_DIR_ENTRY_SIZE) →
    ∃ l, iterSlots d b is = .ok l ∧
      l.length = is.countP (fun i => classifiableB (d.slot b i)) := by
  intro is
  induction is with
  | nil => intro _; exact ⟨[], rfl, by simp⟩
  | cons i rest ih =>
    intro h
    obtain ⟨l, hl, hlen⟩ := ih (fun j hj => h j (List.mem_cons_of_mem _ hj))
    have h64 : (d.slot b i).length = QNX4_DIR_ENTRY_SIZE := h i (List.mem_cons_self _ _)
    by_cases hb0 : (d.slot b i).getD 0 0 = 0
    · have hc : classifySlot d b i = .ok none := by
        unfold classifySlot
        rw [if_neg (fun hc => hc h64), if_pos hb0]
      have hcf : classifiableB (d.slot b i) = false := by
        unfold classifiableB
        rw [hb0]
        rfl
      refine ⟨l, ?_, ?_⟩
      · simp [iterSlots, hc, hl]
      · simp [List.countP_cons, hcf, hlen]
    · by_cases hflag : (d.slot b i).getD 63 0 &&& (QNX4_FILE_USED ||| QNX4_FILE_LINK) = 0
      · have hc : classifySlot d b i = .ok none := by
          unfold classifySlot
          rw [if_neg (fun hc => hc h64), if_neg hb0, if_pos hflag]
        have hcf : classifiableB (d.slot b i) = false := by
          unfold classifiableB
          rw [hflag]
          simp
        refine ⟨l, ?_, ?_⟩
        · simp [iterSlots, hc, hl]
        · simp [List.countP_cons, hcf, hlen]
      · have hsome : ∃ X, classifySlot d b i = .ok (some X) := by
          unfold classifySlot
          rw [if_neg (fun hc => hc h64), if_neg hb0, if_neg hflag]
          split
          · exact ⟨_, rfl⟩
          · exact ⟨_, rfl⟩
        obtain ⟨X, hX⟩ := hsome
        have hcf : classifiableB (d.slot b i) = true := by
          unfold classifiableB
          rw [Bool.and_eq_true, bne_iff_ne, bne_iff_ne]
          exact ⟨hb0, hflag⟩
        refine ⟨X :: l, ?_, ?_⟩
        · simp [iterSlots, hX, hl]
        · simp [List.countP_cons, hcf, hlen]

/-- Helper: the directory iterator over a run list succeeds on full-size
slot reads and yields exactly one entry per classifiable slot. -/
lemma iterdirM_length (d : DirDisk) :
    ∀ runs : List (Int × Nat),
      (∀ r ∈ runs, ∀ i ∈ List.range (QNX4_INODES_PER_BLOCK * r.2),
        (d.slot r.1 i).length = QNX4_DIR_ENTRY_SIZE) →
      ∃ L, iterdirM d runs = .ok L ∧ L.length = countClassifiable d runs := by
  intro runs
  induction runs with
  | nil => intro _; exact ⟨[], rfl, rfl⟩
  | cons r rest ih =>
    intro h
    obtain ⟨l, hl, hlen⟩ := iterSlots_length d r.1
      (List.range (QNX4_INODES_PER_BLOCK * r.2)) (h r (List.mem_cons_self _ _))
    obtain ⟨L, hL, hLlen⟩ := ih (fun s hs => h s (List.mem_cons_of_mem _ hs))
    refine ⟨l ++ L, ?_, ?_⟩
    · simp [iterdirM, hl, hL]
    · simp [countClassifiable, hlen, hLlen]

/-- Helper: inserting a fresh key appends the pair. -/
lemma dictInsert_new (m : List (List Nat × Int)) (kv : List Nat × Int)
    (h : kv.1 ∉ m.map Prod.fst) : dictInsert m kv = m ++ [kv] := by
  unfold dictInsert
  rw [if_neg]
  intro hany
  rw [List.any_eq_true] at hany
  obtain ⟨p, hp, hpk⟩ := hany
  exact h (List.mem_map.mpr ⟨p, hp, beq_iff_eq.mp hpk⟩)

/-- Helper: building a dict from pairs with pairwise distinct keys keeps
every pair. -/
lemma pyDict_foldl_length :
    ∀ (l m : List (List Nat × Int)), ((m ++ l).map Prod.fst).Nodup →
      (l.foldl dictInsert m).length = m.length + l.length := by
  intro l
  induction l with
  | nil => intro m _; simp
  | cons kv rest ih =>
    intro m h
    have hk : kv.1 ∉ m.map Prod.fst := by
      intro hmem
      rw [List.map_append] at h
      have hdisj := List.disjoint_of_nodup_append h
      exact hdisj hmem (by simp)
    rw [List.foldl_cons, dictInsert_new m kv hk]
    have h2 : (((m ++ [kv]) ++ rest).map Prod.fst).Nodup := by
      rw [List.append_assoc]
      simpa using h
    have := ih (m ++ [kv]) h2
    rw [this]
    simp
    omega

/-- C8 (amended): on a directory whose slots all read back full-size, the
iterator yields exactly one entry per classifiable slot, and listdir, which
materializes the entries into a dict, holds exactly that many entries
provided the classifiable slots bear pairwise distinct names; duplicate
names collapse onto one dict entry. -/
theorem c8_listdir_counts_classifiable (d : DirDisk) (runs : List (Int × Nat))
    (h64 : ∀ r ∈ runs, ∀ i ∈ List.range (QNX4_INODES_PER_BLOCK * r.2),
      (d.slot r.1 i).length = QNX4_DIR_ENTRY_SIZE) :
    ∃ L, iterdirM d runs = .ok L ∧ L.length = countClassifiable d runs ∧
      listdirM d runs = .ok (pyDict L) ∧
      ((L.map Prod.fst).Nodup → (pyDict L).length = countClassifiable d runs) := by
  obtain ⟨L, hL, hlen⟩ := iterdirM_length d runs h64
  refine ⟨L, hL, hlen, ?_, ?_⟩
  · unfold listdirM
    rw [hL]
    rfl
  · intro hnd
    have := pyDict_foldl_length L [] (by simpa using hnd)
    rw [pyDict, this]
    simpa using hlen

/-- Slot source for the C8 witness: one run of one block whose slot 0 is a
used entry named with the single byte 97 and whose other slots are unused. -/
def d8w : DirDisk :=
  ⟨fun _ i => if i = 0 then 97 :: (List.replicate 62 0 ++ [1]) else List.replicate 64 0,
   fun _ => ⟨0, 0, 0⟩,
   fun _ => []⟩

/-- Witness for C8 on a concrete directory with 1 classifiable and 7 unused
slots. -/
theorem c8_witness :
    ∃ L, iterdirM d8w [((0 : Int), 1)] = .ok L ∧
      L.length = countClassifiable d8w [((0 : Int), 1)] ∧
      listdirM d8w [((0 : Int), 1)] = .ok (pyDict L) ∧
      ((L.map Prod.fst).Nodup → (pyDict L).length = countClassifiable d8w [((0 : Int), 1)]) :=
  c8_listdir_counts_classifiable d8w [((0 : Int), 1)] (by decide)

/-- Slot source for the C8 counterexample: slots 0 and 1 are used entries
bearing the same name byte 97, the remaining 6 slots are unused. -/
def d8c : DirDisk :=
  ⟨fun _ i => if i = 0 ∨ i = 1 then 97 :: (List.replicate 62 0 ++ [1])
    else List.replicate 64 0,
   fun _ => ⟨0, 0, 0⟩,
   fun _ => []⟩

/-- Counterexample for C8 as stated: a directory with N = 2 classifiable
slots whose names coincide; listdir returns a mapping with 1 entry, not 2,
because dict keys collapse and the later slot wins. -/
theorem c8_counterexample :
    countClassifiable d8c [((0 : Int), 1)] = 2 ∧
    listdirM d8c [((0 : Int), 1)] = .ok [(([97] : List Nat), (1 : Int))] ∧
    ¬(([(([97] : List Nat), (1 : Int))] : List (List Nat × Int)).length = 2) := by
  refine ⟨by decide, by decide, by decide⟩

/-- C9: the symlink predicate holds exactly when the file type bits of the
mode equal S_IFLNK or the status byte carries QNX4_FILE_LINK; in particular
an inode whose mode marks a regular file is still classified as a symlink,
and treated as one by the symlink loop of the path resolver, when its
status byte carries the flag. -/
theorem c9_is_symlink_mode_or_status (fs : QnxFS) (i : Nat) :
    (is_symlink fs i = true ↔
      (S_IFMT (fs.mode i) = S_IFLNK ∨ fs.status i &&& QNX4_FILE_LINK ≠ 0)) ∧
    (S_IFMT (fs.mode i) = S_IFREG → fs.status i &&& QNX4_FILE_LINK ≠ 0 →
      is_symlink fs i = true ∧ is_file fs i = true ∧
      ∀ fuel path, resolveSym fs (fuel + 1) none i path =
        .error (.fileNotFound ("Illegal symlink layout detected: " ++ path))) := by
  constructor
  · unfold is_symlink
    rw [Bool.or_eq_true, beq_iff_eq, bne_iff_ne]
  · intro hreg hflag
    have hsym : is_symlink fs i = true := by
      unfold is_symlink
      rw [Bool.or_eq_true, beq_iff_eq, bne_iff_ne]
      exact Or.inr hflag
    refine ⟨hsym, ?_, ?_⟩
    · unfold is_file
      rw [beq_iff_eq]
      exact hreg
    · intro fuel path
      unfold resolveSym qrun
      rw [if_pos hsym]

/-- Filesystem for the C9 witness: every inode has a regular file mode and
a status byte with the QNX4_FILE_LINK flag. -/
def cfs9 : QnxFS := ⟨0, fun _ => 0o100644, fun _ => 8, fun _ => "", fun _ => []⟩

/-- Witness for C9 on a concrete inode with regular file mode 0o100644 and
status byte 8. -/
theorem c9_witness :
    S_IFMT (cfs9.mode 0) = S_IFREG ∧ cfs9.status 0 &&& QNX4_FILE_LINK ≠ 0 ∧
    (is_symlink cfs9 0 = true ∧ is_file cfs9 0 = true ∧
      resolveSym cfs9 4 none 0 ("x") =
        .error (.fileNotFound ("Illegal symlink layout detected: " ++ "x"))) := by
  refine ⟨by decide, by decide, ?_⟩
  have h := (c9_is_symlink_mode_or_status cfs9 0).2 (by decide) (by decide)
  exact ⟨h.1, h.2.1, h.2.2 3 ("x")⟩

/-- Helper: the component loop of the path resolver skips empty components
and leaves the node untouched when all components are empty. -/
lemma qrun_empty_parts (fs : QnxFS) :
    ∀ (parts : List String) (fuel : Nat) (prev : Option Nat) (node : Nat)
      (path : String), (∀ s ∈ parts, s = "") → parts.length < fuel →
      qrun fs fuel (.parts parts prev node path) = .ok node := by
  intro parts
  induction parts with
  | nil =>
    intro fuel prev node path _ hf
    obtain ⟨f, rfl⟩ : ∃ f, fuel = f + 1 := ⟨fuel - 1, by omega⟩
    rfl
  | cons s rest ih =>
    intro fuel prev node path hall hf
    obtain ⟨f, rfl⟩ : ∃ f, fuel = f + 1 := ⟨fuel - 1, by omega⟩
    have hs : s = "" := hall s (List.mem_cons_self _ _)
    have e : qrun fs (f + 1) (.parts (s :: rest) prev node path) =
        qrun fs f (.parts rest prev node path) := by
      conv_lhs => unfold qrun
      rw [if_pos hs]
    rw [e]
    have hf2 : rest.length < f := by
      simp only [List.length_cons] at hf
      omega
    exact ih f prev node path (fun t ht => hall t (List.mem_cons_of_mem _ ht)) hf2

/-- C10: a path all of whose slash-separated components are empty resolves,
from any non-symlink start node (the root when none is given), to the start
node itself, with no error, for every filesystem view and so independently
of any directory content. -/
theorem c10_empty_path_returns_start (fs : QnxFS) (path : String)
    (start : Option Nat) (fuel : Nat)
    (hall : ∀ s ∈ splitSlash path.data, s = "")
    (hfuel : (splitSlash path.data).length < fuel)
    (_hns : is_symlink fs (start.getD fs.root) = false) :
    qget fs fuel path start = .ok (start.getD fs.root) := by
  unfold qget
  exact qrun_empty_parts fs _ fuel none _ path hall hfuel

/-- Filesystem for the C10 witness: a root directory with one entry. -/
def cfs10 : QnxFS :=
  ⟨0, fun _ => 0o040000, fun _ => 0, fun _ => "", fun _ => [("a", 1)]⟩

/-- Witness for C10 on the concrete path of three slashes with no start
node: resolution returns the root inode. -/
theorem c10_witness :
    (∀ s ∈ splitSlash ("///" : String).data, s = "") ∧
    is_symlink cfs10 ((none : Option Nat).getD cfs10.root) = false ∧
    qget cfs10 10 ("///") none = .ok 0 := by
  refine ⟨by decide, by decide, ?_⟩
  exact c10_empty_path_returns_start cfs10 "///" none 10 (by decide) (by decide) (by decide)

/-- C4 (amended): when the current node is a symlink and no previous node
is available, the resolver raises FileNotFoundError with the illegal
symlink layout message, before any directory scan; the code has no distinct
BrokenLink error kind. -/
theorem c4_no_parent_raises_file_not_found (fs : QnxFS) (fuel : Nat) (node : Nat)
    (p : String) (hsym : is_symlink fs node = true) :
    resolveSym fs (fuel + 1) none node p =
      .error (.fileNotFound ("Illegal symlink layout detected: " ++ p)) := by
  unfold resolveSym qrun
  rw [if_pos hsym]

/-- Filesystem for the C4 witness: every inode is a symlink. -/
def cfs4w : QnxFS := ⟨0, fun _ => 0o120000, fun _ => 0, fun _ => "", fun _ => []⟩

/-- Witness for C4 on a concrete symlink node with no previous node. -/
theorem c4_witness :
    is_symlink cfs4w 5 = true ∧
    resolveSym cfs4w 7 none 5 ("t") =
      .error (.fileNotFound ("Illegal symlink layout detected: " ++ "t")) :=
  ⟨by decide, c4_no_parent_raises_file_not_found cfs4w 6 5 "t" (by decide)⟩

/-- Filesystem for the C4 counterexample: inode 6 is a symlink, the root
inode 0 is a directory holding only the entry d. -/
def cfs4 : QnxFS :=
  ⟨0, fun i => if i = 6 then 0o120000 else 0o040000, fun _ => 0, fun _ => "",
   fun i => if i = 0 then [("d", 1)] else []⟩

/-- Counterexample for C4 as stated: the no-parent symlink failure is
raised as FileNotFoundError, the same exception class the resolver uses for
a missing path component, so it is not a distinct BrokenLink error kind. -/
theorem c4_counterexample :
    qget cfs4 3 ("x") (some 6) =
      .error (.fileNotFound ("Illegal symlink layout detected: x")) ∧
    qget cfs4 3 ("nope") none =
      .error (.fileNotFound ("File not found: nope")) ∧
    (QErr.fileNotFound ("Illegal symlink layout detected: x")).pyClass =
      (QErr.fileNotFound ("File not found: nope")).pyClass := by
  refine ⟨by decide, by decide, rfl⟩

/-- C3 (amended): when the resolver meets a symlink whose data content is
the text /a/b and whose previous node is the root, and /a/b resolves from
the root to a non-symlink inode, the symlink loop resolves the symlink to
exactly that inode, because the recursive resolution of the link text
relative to the previous node is the same call as resolution from the
root. -/
theorem c3_symlink_slash_a_b_via_root (fs : QnxFS) (f : Nat) (sym t : Nat)
    (p : String)
    (hsym : is_symlink fs sym = true)
    (hlink : fs.linkContent sym = "/a/b")
    (hroot : qget fs f ("/a/b") none = .ok t)
    (ht : is_symlink fs t = false)
    (hf : 0 < f) :
    resolveSym fs (f + 1) (some fs.root) sym p = .ok t := by
  obtain ⟨f2, rfl⟩ : ∃ f2, f = f2 + 1 := ⟨f - 1, by omega⟩
  have hget : qrun fs (f2 + 1)
      (.parts (splitSlash (fs.linkContent sym).data) none fs.root
        (fs.linkContent sym)) = .ok t := by
    rw [hlink]
    exact hroot
  have e1 : resolveSym fs (f2 + 1 + 1) (some fs.root) sym p =
      qrun fs (f2 + 1) (.rsym (some sym) t p) := by
    show (if is_symlink fs sym = true then
        match qrun fs (f2 + 1)
            (.parts (splitSlash (fs.linkContent sym).data) none fs.root
              (fs.linkContent sym)) with
        | .error e => .error e
        | .ok t2 => qrun fs (f2 + 1) (.rsym (some sym) t2 p)
      else .ok sym) = qrun fs (f2 + 1) (.rsym (some sym) t p)
    rw [if_pos hsym, hget]
  have e2 : qrun fs (f2 + 1) (.rsym (some sym) t p) = .ok t := by
    conv_lhs => unfold qrun
    rw [if_neg (show ¬(is_symlink fs t = true) by simp [ht])]
  rw [e1, e2]

/-- Filesystem for the C3 witness: the root 0 holds a, a holds b, inode 2
is a regular file and inode 6 is a symlink with content /a/b. -/
def cfs3w : QnxFS :=
  ⟨0,
   fun i => if i = 6 then 0o120000 else if i = 2 then 0o100000 else 0o040000,
   fun _ => 0,
   fun i => if i = 6 then "/a/b" else "",
   fun i => if i = 0 then [("a", 1)] else if i = 1 then [("b", 2)] else []⟩

/-- Witness for C3 on a concrete filesystem where the previous node of the
symlink is the root. -/
theorem c3_witness :
    is_symlink cfs3w 6 = true ∧ cfs3w.linkContent 6 = "/a/b" ∧
    qget cfs3w 9 ("/a/b") none = .ok 2 ∧ is_symlink cfs3w 2 = false ∧
    resolveSym cfs3w 10 (some cfs3w.root) 6 ("q") = .ok 2 := by
  refine ⟨by decide, by decide, by decide, by decide, ?_⟩
  exact c3_symlink_slash_a_b_via_root cfs3w 9 6 2 ("q") (by decide) (by decide)
    (by decide) (by decide) (by decide)

/-- Filesystem for the C3 counterexample: the root 0 holds a and d; a holds
b with inode 2; the directory d (inode 3) holds its own entry a (inode 4)
whose b is inode 5, and the symlink s (inode 6) with content /a/b, so the
previous node of the symlink during resolution of d/s is 3, not the
root. -/
def cfs3 : QnxFS :=
  ⟨0,
   fun i => if i = 6 then 0o120000
     else if i = 2 ∨ i = 5 then 0o100000 else 0o040000,
   fun _ => 0,
   fun i => if i = 6 then "/a/b" else "",
   fun i => if i = 0 then [("a", 1), ("d", 3)]
     else if i = 1 then [("b", 2)]
     else if i = 3 then [("a", 4), ("s", 6)]
     else if i = 4 then [("b", 5)] else []⟩

/-- Counterexample for C3 as stated: the symlink at inode 6 carries the
text /a/b and is reachable through path resolution of d/s, which hands the
symlink loop the previous node 3; the loop resolves the link text relative
to that parent and yields inode 5, while resolving /a/b from the root
yields inode 2. -/
theorem c3_counterexample :
    is_symlink cfs3 6 = true ∧
    cfs3.linkContent 6 = "/a/b" ∧
    qget cfs3 10 ("d/s") none = .ok 6 ∧
    resolveSym cfs3 10 (some 3) 6 ("s") = .ok 5 ∧
    qget cfs3 10 ("/a/b") none = .ok 2 ∧
    (5 : Nat) ≠ 2 := by
  refine ⟨by decide, by decide, by decide, by decide, by decide, by decide⟩
